import Mathlib

/-!
Shallow embedding of the CAYT browser extension core, translated from
src/cayt-extension/background.js (session store, request coordinator,
message handlers, tab listeners) and src/cayt-extension/content.js
(ad monitor, playback synchronizer, toggle/response handling).
Network and platform effects are modelled as explicit oracle inputs,
and every outgoing call is recorded in an effect list.
-/

namespace CAYT

/-- One timed subtitle unit (a backend segment). Playback times in seconds
are modelled as rationals. -/
structure Segment where
  start : ℚ
  «end» : ℚ
  original : String
  translated : String
deriving DecidableEq, Repr

instance : Inhabited Segment := ⟨⟨0, 0, "", ""⟩⟩

/-- JS truthiness of a string-or-null value: null and the empty string are
falsy, every other string is truthy. -/
def truthyOptStr : Option String → Bool
  | none => false
  | some s => !(s == "")

/-- The JS expression (a || b) on string-or-null values. -/
def jsOr (a b : Option String) : Option String :=
  if truthyOptStr a then a else b

/-- The JS expression (a || b) where b is a plain string default. -/
def jsOrStr (a : Option String) (b : String) : String :=
  match a with
  | none => b
  | some s => if s == "" then b else s

/-- String interpolation of a string-or-null value in a JS template literal:
null prints as the four characters null. -/
def jsToString (v : Option String) : String :=
  match v with
  | none => "null"
  | some s => s

/-- Splits a character list at the first occurrence of c; the second
component is none when c does not occur. Used to model the scheme, query
and fragment splitting done by the platform URL parser. -/
def splitFirst (c : Char) : List Char → List Char × Option (List Char)
  | [] => ([], none)
  | x :: xs =>
    if x = c then ([], some xs)
    else
      let r := splitFirst c xs
      (x :: r.1, r.2)

/-- Splits a character list on every occurrence of c. -/
def splitAll (c : Char) : List Char → List (List Char)
  | [] => [[]]
  | x :: xs =>
    if x = c then [] :: splitAll c xs
    else
      match splitAll c xs with
      | [] => [[x]]
      | a :: rest => (x :: a) :: rest

/-- Models URLSearchParams.get: the value of the first pair whose key
matches; a piece without an equals sign is a key with empty value.
Percent-decoding is omitted (YouTube video ids contain no escapes). -/
def queryGet (key : List Char) : List (List Char) → Option (List Char)
  | [] => none
  | piece :: rest =>
    let kv := splitFirst '=' piece
    if kv.1 = key then some (kv.2.getD []) else queryGet key rest

def isSchemeChar (c : Char) : Bool :=
  c.isAlphanum || c == '+' || c == '-' || c == '.'

/-- Models whether the platform URL constructor accepts the string: it must
start with a scheme (a letter followed by letters, digits, plus, minus or
dot) and a colon. Host validation is omitted; a string with no scheme,
such as a bare search phrase, is rejected, which in the source raises the
exception caught by extractVideoId. -/
def validURLString (s : String) : Bool :=
  match splitFirst ':' s.toList with
  | (_, none) => false
  | (scheme, some _) =>
    match scheme with
    | [] => false
    | c :: cs => c.isAlpha && cs.all isSchemeChar

/-- The query part of a URL: everything after the first question mark of
the part before the first hash; none when there is no question mark. -/
def urlQuery (s : String) : Option (List Char) :=
  (splitFirst '?' (splitFirst '#' s.toList).1).2

/-- background.js extractVideoId: new URL(url).searchParams.get("v"),
with the try/catch mapping a parse failure to null. Total by construction:
every input yields a value, never an exception. -/
def extractVideoId (url : String) : Option String :=
  if validURLString url then
    match urlQuery url with
    | none => none
    | some q => (queryGet ['v'] (splitAll '&' q)).map (fun cs => String.mk cs)
  else none

/-- background.js handleTranslate request key: the template literal
tabId-videoId where a null videoId prints as null. -/
def mkRequestKey (tabId : Nat) (videoId : Option String) : String :=
  toString tabId ++ "-" ++ jsToString videoId

/-- Per-tab session record, the object literal built by initTabState in
background.js. -/
structure TabState where
  isActive : Bool
  isLoading : Bool
  subtitles : Option (List Segment)
  currentVideoId : Option String
  currentTaskId : Option String
  sourceType : Option String
  error : Option String
deriving DecidableEq, Repr

def initialTabState : TabState :=
  { isActive := false, isLoading := false, subtitles := none,
    currentVideoId := none, currentTaskId := none, sourceType := none,
    error := none }

/-- The two module-level maps of background.js: tabStates and
pendingRequests (the pending map only ever stores the value true, so it is
modelled as its key set). -/
structure BGState where
  tabStates : List (Nat × TabState)
  pendingRequests : List String
deriving DecidableEq, Repr

def BGState.initial : BGState := { tabStates := [], pendingRequests := [] }

def lookupA : List (Nat × TabState) → Nat → Option TabState
  | [], _ => none
  | p :: l, t => if p.1 = t then some p.2 else lookupA l t

def updA (t : Nat) (f : TabState → TabState) :
    List (Nat × TabState) → List (Nat × TabState)
  | [] => []
  | p :: l => (if p.1 = t then (p.1, f p.2) else p) :: updA t f l

/-- Map.set semantics on the association list: replace when present,
insert when absent. -/
def setA (l : List (Nat × TabState)) (t : Nat) (v : TabState) :
    List (Nat × TabState) :=
  if (lookupA l t).isSome then updA t (fun _ => v) l else (t, v) :: l

def lookupTab (bg : BGState) (t : Nat) : Option TabState :=
  lookupA bg.tabStates t

def updTab (bg : BGState) (t : Nat) (f : TabState → TabState) : BGState :=
  { bg with tabStates := updA t f bg.tabStates }

/-- background.js initTabState: tabStates.set(tabId, fresh state). -/
def initTabState (bg : BGState) (tabId : Nat) : BGState :=
  { bg with tabStates := setA bg.tabStates tabId initialTabState }

/-- background.js getTabState: the existing state, or a freshly initialized
one inserted into the store. The second component is the store after the
call. -/
def getTabStateBG (bg : BGState) (tabId : Nat) : TabState × BGState :=
  match lookupTab bg tabId with
  | some st => (st, bg)
  | none => (initialTabState, initTabState bg tabId)

/-- Map.has on the pending key set. -/
def memB (k : String) : List String → Bool
  | [] => false
  | x :: xs => if x = k then true else memB k xs

/-- Map.delete on the pending key set (at most one occurrence is ever
stored, so deleting the first occurrence is deletion). -/
def eraseKey (k : String) : List String → List String
  | [] => []
  | x :: xs => if x = k then xs else x :: eraseKey k xs

/-- Outgoing calls issued by the background handlers, in program order:
the health fetch, the translate fetch, the cancel fetch, and the
chrome.tabs.sendMessage notification to the content script. -/
inductive Effect where
  | healthCheck : Effect
  | translateReq (videoUrl sourceLang : String) : Effect
  | cancelReq (videoId : String) : Effect
  | tabMessage (tabId : Nat) : Effect
deriving DecidableEq, Repr

/-- Body of a successful GET /health response. -/
structure HealthJson where
  ollama : String
  model : Option String
  stt : String
deriving DecidableEq, Repr

structure HealthResult where
  success : Bool
  ollama : Bool
  stt : Bool
  model : Option String
  error : Option String
deriving DecidableEq, Repr

/-- background.js checkServerHealth as a function of the fetch outcome
(an error covers both a transport failure and a non-ok status). -/
def checkServerHealth (o : Except String HealthJson) : HealthResult :=
  match o with
  | .ok d =>
    { success := true, ollama := d.ollama == "connected",
      stt := d.stt == "available", model := d.model, error := none }
  | .error _ =>
    { success := false, ollama := false, stt := false, model := none,
      error := some "백엔드 서버에 연결할 수 없습니다." }

/-- Body of a POST /api/v1/translate/cancel response. -/
structure CancelResult where
  success : Bool
  error : Option String
  message : Option String
deriving DecidableEq, Repr

/-- background.js requestCancelByVideoId: no call at all when videoId is
falsy; otherwise the cancel fetch is issued and a transport or JSON
failure is caught and mapped to a failure result (the function never
throws). -/
def requestCancelByVideoId (o : Except String CancelResult)
    (videoId : Option String) : CancelResult × List Effect :=
  if truthyOptStr videoId then
    match o with
    | .ok r => (r, [Effect.cancelReq (videoId.getD "")])
    | .error e =>
      ({ success := false, error := some e, message := none },
       [Effect.cancelReq (videoId.getD "")])
  else
    ({ success := false, error := none, message := none }, [])

/-- Body of a GET /api/v1/translate response whose HTTP status was ok. -/
structure TranslateResult where
  success : Bool
  segments : List Segment
  task_id : Option String
  video_id : Option String
  title : Option String
  context : Option String
  total_segments : Nat
  source_type : Option String
  cached : Bool
  message : Option String
deriving DecidableEq, Repr

/-- The data object of a successful translate response sent back to the
content script. -/
structure TranslateData where
  taskId : Option String
  videoId : Option String
  title : Option String
  segments : List Segment
  context : Option String
  totalSegments : Nat
  sourceType : Option String
  cached : Bool
deriving DecidableEq, Repr

/-- The four shapes of sendResponse payload produced by handleTranslate:
the duplicate-request rejection, the success payload, the cancelled
result (success false with the cancelled flag), and the error result. -/
inductive TranslateResponse where
  | duplicate : TranslateResponse
  | success (data : TranslateData) : TranslateResponse
  | cancelled (message : String) : TranslateResponse
  | failure (error : String) : TranslateResponse
deriving DecidableEq, Repr

/-- The sendResponse payloads of handleCancelTranslation: the
not-loading no-op (success true, message Nothing to cancel), the
forwarded backend cancel result, and the no-videoId failure. -/
inductive CancelResponse where
  | nothingToCancel : CancelResponse
  | backendResult (r : CancelResult) : CancelResponse
  | noTask : CancelResponse
deriving DecidableEq, Repr

/-- Oracle for the network outcomes a single handleTranslate invocation
can observe: the health fetch, the translate fetch, and the best-effort
cancel of a previously loading video. -/
structure TEnv where
  healthFetch : Except String HealthJson
  translateOutcome : Except String TranslateResult
  prevCancel : Except String CancelResult
deriving Repr

/-- background.js handleTranslate, lines 144 to 162: read (and if needed
initialize) the tab state, extract the video id, reject a duplicate key
before any network activity, otherwise best-effort cancel a different
video the session is still loading, and register the key as pending.
Returns none on the duplicate rejection; otherwise the store with the key
registered, the effects of the best-effort cancel, and the key. -/
def handleTranslateEnter (prevCancel : Except String CancelResult)
    (bg0 : BGState) (tabId : Nat) (videoUrl : String) :
    Option (BGState × List Effect × String) :=
  let g := getTabStateBG bg0 tabId
  let st := g.1
  let bg := g.2
  let videoId := extractVideoId videoUrl
  let key := mkRequestKey tabId videoId
  if memB key bg.pendingRequests then none
  else
    let cEffs :=
      if st.isLoading && truthyOptStr st.currentVideoId
          && !(st.currentVideoId == videoId) then
        (requestCancelByVideoId prevCancel st.currentVideoId).2
      else []
    some ({ bg with pendingRequests := key :: bg.pendingRequests }, cEffs, key)

/-- The session update of the catch block of handleTranslate, lines 218
to 220: reset loading, null the current video id, record the error. -/
def catchUpdF (e : String) (s : TabState) : TabState :=
  { s with isLoading := false, currentVideoId := none, error := some e }

/-- The session update at lines 169 to 171: mark loading, record the
video id, clear the prior error. -/
def loadUpd (videoId : Option String) (s : TabState) : TabState :=
  { s with isLoading := true, currentVideoId := videoId, error := none }

/-- The session update of the success branch, lines 187 to 191. -/
def successUpd (r : TranslateResult) (s : TabState) : TabState :=
  { s with subtitles := some r.segments, currentTaskId := r.task_id,
           sourceType := r.source_type, isActive := true,
           isLoading := false }

/-- The session update shared by the backend-cancelled branch of
handleTranslate (lines 209 to 210) and by handleCancelTranslation
(lines 248 to 249): clear loading, null the video id. -/
def cancelResetUpd (s : TabState) : TabState :=
  { s with isLoading := false, currentVideoId := none }

/-- The catch block of handleTranslate applied to the store. -/
def catchUpd (bg : BGState) (tabId : Nat) (e : String) : BGState :=
  updTab bg tabId (catchUpdF e)

/-- handleTranslate from the start of the try block up to the suspension
on the translate fetch, lines 165 to 181: health precondition checks
(whose thrown errors land in the catch block), then the loading update
and the state notification to the content script. Sum value: inl is the
state and effects at the suspension point, inr is an early exit through
the catch block. -/
def translatePre (healthFetch : Except String HealthJson) (bg : BGState)
    (tabId : Nat) (videoId : Option String) :
    (BGState × List Effect) ⊕ (BGState × TranslateResponse × List Effect) :=
  let h := checkServerHealth healthFetch
  if !h.success then
    let e := jsOrStr h.error "undefined"
    .inr (catchUpd bg tabId e, TranslateResponse.failure e, [Effect.healthCheck])
  else if !h.ollama then
    let e := "Ollama 서버가 실행 중이지 않습니다."
    .inr (catchUpd bg tabId e, TranslateResponse.failure e, [Effect.healthCheck])
  else
    .inl (updTab bg tabId (loadUpd videoId),
          [Effect.healthCheck, Effect.tabMessage tabId])

/-- handleTranslate from the return of the translate fetch to the end of
the try/catch, lines 184 to 222: a thrown transport or HTTP failure goes
through the catch block; a successful response either carries the
success payload (applied to the session and echoed back) or signals a
backend cancellation (loading cleared, video id nulled, cancelled
response). The finally erasure of the pending key is applied by the
caller. -/
def translatePost (outcome : Except String TranslateResult) (bg : BGState)
    (tabId : Nat) (videoUrl sourceLang : String) :
    BGState × TranslateResponse × List Effect :=
  match outcome with
  | .error e =>
    (catchUpd bg tabId e, TranslateResponse.failure e,
     [Effect.translateReq videoUrl sourceLang])
  | .ok r =>
    if r.success then
      (updTab bg tabId (successUpd r),
       TranslateResponse.success
         { taskId := r.task_id, videoId := r.video_id, title := r.title,
           segments := r.segments, context := r.context,
           totalSegments := r.total_segments, sourceType := r.source_type,
           cached := r.cached },
       [Effect.translateReq videoUrl sourceLang])
    else
      (updTab bg tabId cancelResetUpd,
       TranslateResponse.cancelled (jsOrStr r.message "번역이 취소되었습니다."),
       [Effect.translateReq videoUrl sourceLang])

/-- background.js handleTranslate, lines 143 to 227, run to completion
with no interleaving: entry and dedup, health precondition, translate
fetch, and the finally block erasing the pending key on every path out
of the try. -/
def handleTranslate (env : TEnv) (bg0 : BGState) (tabId : Nat)
    (videoUrl sourceLang : String) :
    BGState × TranslateResponse × List Effect :=
  match handleTranslateEnter env.prevCancel bg0 tabId videoUrl with
  | none => ((getTabStateBG bg0 tabId).2, TranslateResponse.duplicate, [])
  | some (bg1, cEffs, key) =>
    match translatePre env.healthFetch bg1 tabId (extractVideoId videoUrl) with
    | .inr (bg2, resp, effs) =>
      ({ bg2 with pendingRequests := eraseKey key bg2.pendingRequests },
       resp, cEffs ++ effs)
    | .inl (bg2, effs) =>
      let p := translatePost env.translateOutcome bg2 tabId videoUrl sourceLang
      ({ p.1 with pendingRequests := eraseKey key p.1.pendingRequests },
       p.2.1, cEffs ++ effs ++ p.2.2)

/-- background.js handleCancelTranslation, lines 229 to 254: a no-op
success when the session is not loading; otherwise, with a truthy video
id (explicit or from the session), erase the pending key, send the
backend cancel, and reset loading and video id regardless of the cancel
outcome; without a truthy video id, a failure response. -/
def handleCancelTranslation (cancelOutcome : Except String CancelResult)
    (bg0 : BGState) (tabId : Nat) (messageVideoId : Option String) :
    BGState × CancelResponse × List Effect :=
  let g := getTabStateBG bg0 tabId
  let st := g.1
  let bg := g.2
  let videoId := jsOr messageVideoId st.currentVideoId
  if !st.isLoading then
    (bg, CancelResponse.nothingToCancel, [])
  else if truthyOptStr videoId then
    let key := mkRequestKey tabId videoId
    let bg := { bg with pendingRequests := eraseKey key bg.pendingRequests }
    let rc := requestCancelByVideoId cancelOutcome videoId
    let bg := updTab bg tabId cancelResetUpd
    (bg, CancelResponse.backendResult rc.1, rc.2)
  else
    (bg, CancelResponse.noTask, [])

/-- The fields of a message.state object accepted by the setState action;
absent fields are left untouched by Object.assign. -/
structure StatePatch where
  isActive : Option Bool
  isLoading : Option Bool
  subtitles : Option (Option (List Segment))
  currentVideoId : Option (Option String)
  currentTaskId : Option (Option String)
  sourceType : Option (Option String)
  error : Option (Option String)
deriving DecidableEq, Repr

def StatePatch.empty : StatePatch :=
  { isActive := none, isLoading := none, subtitles := none,
    currentVideoId := none, currentTaskId := none, sourceType := none,
    error := none }

def applyPatch (s : TabState) (p : StatePatch) : TabState :=
  { isActive := p.isActive.getD s.isActive,
    isLoading := p.isLoading.getD s.isLoading,
    subtitles := p.subtitles.getD s.subtitles,
    currentVideoId := p.currentVideoId.getD s.currentVideoId,
    currentTaskId := p.currentTaskId.getD s.currentTaskId,
    sourceType := p.sourceType.getD s.sourceType,
    error := p.error.getD s.error }

/-- handleMessage case setState, lines 129 to 132:
Object.assign(getTabState(tabId), message.state). -/
def handleSetState (bg : BGState) (tabId : Nat) (p : StatePatch) : BGState :=
  let g := getTabStateBG bg tabId
  updTab g.2 tabId (fun s => applyPatch s p)

/-- chrome.tabs.onRemoved listener, lines 260 to 276: best-effort cancel
(an effect with no local state change), removal of every pending key of
the tab, deletion of the tab state. -/
def tabRemovedHandler (bg : BGState) (tabId : Nat) : BGState :=
  { tabStates := bg.tabStates.filter (fun p => !(p.1 == tabId)),
    pendingRequests :=
      bg.pendingRequests.filter
        (fun k => !(k.startsWith (toString tabId ++ "-"))) }

def strContains (s pat : String) : Bool :=
  s.toList.tails.any (fun t => pat.toList.isPrefixOf t)

/-- chrome.tabs.onUpdated listener, lines 278 to 297: on a URL change to a
YouTube URL, when the session is loading a different (truthy) video,
best-effort cancel it, drop its pending key and reinitialize the tab
state; otherwise no state change. -/
def tabUpdatedHandler (bg : BGState) (tabId : Nat)
    (changeUrl : Option String) : BGState :=
  match changeUrl with
  | none => bg
  | some url =>
    if strContains url "youtube.com" then
      match lookupTab bg tabId with
      | none => bg
      | some st =>
        let newVideoId := extractVideoId url
        if !(newVideoId == st.currentVideoId) && st.isLoading
            && truthyOptStr st.currentVideoId then
          let key := mkRequestKey tabId st.currentVideoId
          initTabState
            { bg with pendingRequests := eraseKey key bg.pendingRequests }
            tabId
        else bg
    else bg

/-- One background operation together with the network outcomes it
observes; any sequence of these from the empty store is a reachable
background history. -/
inductive BGOp where
  | getState (tabId : Nat) : BGOp
  | translate (env : TEnv) (tabId : Nat) (videoUrl sourceLang : String) : BGOp
  | cancelT (o : Except String CancelResult) (tabId : Nat)
      (messageVideoId : Option String) : BGOp
  | setState (tabId : Nat) (p : StatePatch) : BGOp
  | tabRemoved (tabId : Nat) : BGOp
  | tabUpdated (tabId : Nat) (changeUrl : Option String) : BGOp

def BGOp.isSetState : BGOp → Bool
  | .setState _ _ => true
  | _ => false

def applyOp (bg : BGState) : BGOp → BGState
  | .getState tabId => (getTabStateBG bg tabId).2
  | .translate env tabId url lang => (handleTranslate env bg tabId url lang).1
  | .cancelT o tabId mvid => (handleCancelTranslation o bg tabId mvid).1
  | .setState tabId p => handleSetState bg tabId p
  | .tabRemoved tabId => tabRemovedHandler bg tabId
  | .tabUpdated tabId u => tabUpdatedHandler bg tabId u

/-- The background store after a sequence of operations from startup. -/
def runOps (ops : List BGOp) : BGState := ops.foldl applyOp BGState.initial

/-- The ad-cache snapshot captured by onAdStart in content.js. -/
structure AdCache where
  subtitles : List Segment
  taskId : Option String
  videoId : Option String
deriving DecidableEq, Repr

/-- The content-script state object of content.js plus the rendered UI
observables it drives: buttonActive and subtitleHidden are the active and
hidden CSS classes, subtitleText the innerHTML of the subtitle text
element. uiPresent models whether the video element, subtitle container
and control button exist (initialize creates them together; every DOM
access in the source is guarded on them). -/
structure ContentState where
  isActive : Bool
  isLoading : Bool
  subtitles : List Segment
  currentIndex : Int
  currentTaskId : Option String
  currentVideoId : Option String
  isAdPlaying : Bool
  cachedSubtitles : Option AdCache
  pendingRequest : Option String
  showOriginal : Bool
  uiPresent : Bool
  buttonActive : Bool
  subtitleHidden : Bool
  subtitleText : String
deriving DecidableEq, Repr

/-- Array.prototype.findIndex on the segment list. -/
def jsFindIndex (p : Segment → Bool) : List Segment → Option Nat
  | [] => none
  | a :: l => if p a then some 0 else (jsFindIndex p l).map (· + 1)

/-- The subtitle search predicate of updateSubtitle, line 437:
currentTime at least start and strictly below the segment end. -/
def segMatches (t : ℚ) (sub : Segment) : Bool :=
  decide (t ≥ sub.start) && decide (t < sub.«end»)

/-- The innerHTML written for an active segment, lines 448 to 454:
the translated text, followed by the original in a secondary span when
showOriginal is set. -/
def subtitleContentOf (showOriginal : Bool) (sub : Segment) : String :=
  if showOriginal then
    sub.translated ++ "<span class=\"cayt-subtitle-original\">"
      ++ sub.original ++ "</span>"
  else sub.translated

/-- content.js updateSubtitle, lines 431 to 461, at playback time t:
find the first segment containing t; when the found index (minus one for
no match) differs from the recorded one, record it and either render that
segment and show the container, or clear the text and hide it. -/
def updateSubtitle (t : ℚ) (st : ContentState) : ContentState :=
  if !st.uiPresent then st
  else if st.subtitles.isEmpty then st
  else
    match jsFindIndex (segMatches t) st.subtitles with
    | some i =>
      if (i : Int) = st.currentIndex then st
      else
        let sub := st.subtitles.getD i default
        { st with currentIndex := (i : Int),
                  subtitleText := subtitleContentOf st.showOriginal sub,
                  subtitleHidden := false }
    | none =>
      if (-1 : Int) = st.currentIndex then st
      else
        { st with currentIndex := -1, subtitleText := "",
                  subtitleHidden := true }

/-- content.js onAdEnd, lines 173 to 193, with the video id re-resolved
from the page location and the playback time passed to the immediate
updateSubtitle run: leave the ad state; when a snapshot exists and its
video id equals the location one, restore subtitles, task id and video
id, mark active, set the button class, unhide the container, re-run the
synchronizer, and clear the snapshot; otherwise change nothing else. -/
def onAdEnd (locationVideoId : Option String) (t : ℚ)
    (st0 : ContentState) : ContentState :=
  let st := { st0 with isAdPlaying := false }
  match st.cachedSubtitles with
  | none => st
  | some c =>
    if locationVideoId = c.videoId then
      let st := { st with subtitles := c.subtitles,
                          currentTaskId := c.taskId,
                          currentVideoId := c.videoId,
                          isActive := true }
      let st := if st.uiPresent then { st with buttonActive := true } else st
      let st := if st.uiPresent then { st with subtitleHidden := false } else st
      let st := updateSubtitle t st
      { st with cachedSubtitles := none }
    else st

/-- The state reached inside the restore branch of onAdEnd just before
its immediate updateSubtitle run: snapshot fields restored, session
active, button class set and container unhidden when the UI is present. -/
def adRestoreState (st : ContentState) (c : AdCache) : ContentState :=
  let st1 := { st with isAdPlaying := false, subtitles := c.subtitles,
                       currentTaskId := c.taskId, currentVideoId := c.videoId,
                       isActive := true }
  let st2 := if st1.uiPresent then { st1 with buttonActive := true } else st1
  if st2.uiPresent then { st2 with subtitleHidden := false } else st2

/-- content.js setLoading, lines 385 to 395, restricted to the state it
records (the loading CSS classes render this flag). -/
def setLoadingC (b : Bool) (st : ContentState) : ContentState :=
  { st with isLoading := b }

/-- content.js activateSubtitles from the return of the translate
round-trip to the end, lines 335 to 367: a response arriving when
pendingRequest no longer equals the video id of this request is ignored
(only the finally block runs); otherwise a success payload is applied
and rendered, a cancelled response nulls the video id silently, and an
error response (or a thrown send) shows an error and nulls the video id;
the finally block always clears pendingRequest and the loading flag. -/
def activateResume (requestVideoId : Option String)
    (resp : TranslateResponse) (t : ℚ) (st0 : ContentState) : ContentState :=
  if !(st0.pendingRequest == requestVideoId) then
    setLoadingC false { st0 with pendingRequest := none }
  else
    let st :=
      match resp with
      | TranslateResponse.success d =>
        let st := { st0 with subtitles := d.segments,
                             currentTaskId := d.taskId,
                             isActive := true }
        let st := if st.uiPresent then { st with buttonActive := true } else st
        let st := if st.uiPresent then { st with subtitleHidden := false } else st
        updateSubtitle t st
      | TranslateResponse.cancelled _ => { st0 with currentVideoId := none }
      | TranslateResponse.duplicate => { st0 with currentVideoId := none }
      | TranslateResponse.failure _ => { st0 with currentVideoId := none }
    setLoadingC false { st with pendingRequest := none }

/-- content.js cancelTranslation, lines 290 to 309: with a falsy current
video id only the loading flag is cleared; otherwise the cancel message
is sent (handled by the background handler, composed explicitly in the
interleaving scenarios) and pendingRequest and the loading flag are
cleared. -/
def cancelTranslationContent (st : ContentState) : ContentState :=
  if !truthyOptStr st.currentVideoId then setLoadingC false st
  else setLoadingC false { st with pendingRequest := none }

/-! Concrete scenario data used by the verification theorems. -/

def urlA : String := "https://www.youtube.com/watch?v=abc"

def segHello : Segment :=
  { start := 0, «end» := 1, original := "hi", translated := "안녕" }

def trSuccess : TranslateResult :=
  { success := true, segments := [segHello], task_id := some "t1",
    video_id := some "abc", title := some "T", context := none,
    total_segments := 1, source_type := some "subtitle", cached := false,
    message := none }

def healthUp : HealthJson :=
  { ollama := "connected", model := some "m", stt := "available" }

def okCancel : CancelResult := { success := true, error := none, message := none }

def envSuccess : TEnv :=
  { healthFetch := Except.ok healthUp,
    translateOutcome := Except.ok trSuccess,
    prevCancel := Except.ok { success := true, error := none, message := none } }

/-- A store with one initialized tab and a pending translate request for
that tab and the video of urlA. -/
def bgPendingA : BGState :=
  { tabStates := [(1, initialTabState)], pendingRequests := ["1-abc"] }

/-- A store whose session for tab 1 is loading the video of urlA. -/
def bgLoadingA : BGState :=
  { tabStates :=
      [(1, { initialTabState with isLoading := true,
                                  currentVideoId := some "abc" })],
    pendingRequests := ["1-abc"] }

/-- The interleaved-cancel scenario, stage 1: the translate handler for
tab 1 and urlA has run its dedup stage and registered its pending key on
the empty store. -/
def c4AfterRegister : BGState :=
  match handleTranslateEnter envSuccess.prevCancel BGState.initial 1 urlA with
  | some x => x.1
  | none => BGState.initial

/-- Stage 2: the handler has passed the health checks and suspends on the
translate fetch, the session marked loading. -/
def c4AtAwait : BGState :=
  match translatePre envSuccess.healthFetch c4AfterRegister 1
      (extractVideoId urlA) with
  | .inl x => x.1
  | .inr x => x.1

/-- Stage 3: a user cancel runs to completion while the translate call is
still in flight, resetting the session. -/
def c4AfterCancel : BGState :=
  (handleCancelTranslation
    (Except.ok { success := true, error := none, message := some "done" })
    c4AtAwait 1 none).1

/-- Stage 4: the late successful translate response is processed by the
remainder of the suspended handler, including the finally erasure of the
pending key. -/
def c4Final : BGState :=
  let p := translatePost (Except.ok trSuccess) c4AfterCancel 1 urlA "en"
  { p.1 with
    pendingRequests :=
      eraseKey (mkRequestKey 1 (extractVideoId urlA)) p.1.pendingRequests }

/-- A setState payload carrying both flags set, as any caller of the
setState action may send. -/
def c3Patch : StatePatch :=
  { StatePatch.empty with isActive := some true, isLoading := some true }

/-- A background store reachable by one setState operation. -/
def c3Bad : BGState := runOps [BGOp.setState 1 c3Patch]

/-- A content-script state with the UI attached and everything else at its
initial value. -/
def contentBase : ContentState :=
  { isActive := false, isLoading := false, subtitles := [], currentIndex := -1,
    currentTaskId := none, currentVideoId := none, isAdPlaying := false,
    cachedSubtitles := none, pendingRequest := none, showOriginal := false,
    uiPresent := true, buttonActive := false, subtitleHidden := true,
    subtitleText := "" }

def c5Cache : AdCache :=
  { subtitles := [segHello], taskId := some "t1", videoId := some "A" }

/-- An ad is playing and a snapshot for video A is cached. -/
def c5State : ContentState :=
  { contentBase with isAdPlaying := true, cachedSubtitles := some c5Cache }

/-- An active content session holding one segment. -/
def c6State : ContentState :=
  { contentBase with isActive := true, subtitles := [segHello] }

/-! Helper lemmas about the store primitives. -/

theorem memB_iff_mem (k : String) (l : List String) : memB k l = true ↔ k ∈ l := by
  induction l with
  | nil => simp [memB]
  | cons x xs ih =>
    by_cases h : x = k
    · subst h; simp [memB]
    · simp [memB, if_neg h, ih, List.mem_cons, Ne.symm h]

theorem eraseKey_cons_self (k : String) (l : List String) :
    eraseKey k (k :: l) = l := by
  simp [eraseKey]

theorem eraseKey_of_not_memB (k : String) (l : List String)
    (h : memB k l = false) : eraseKey k l = l := by
  induction l with
  | nil => rfl
  | cons x xs ih =>
    by_cases hx : x = k
    · subst hx; simp [memB] at h
    · simp [memB, if_neg hx] at h
      simp [eraseKey, if_neg hx, ih h]

theorem memB_eraseKey_of_nodup (k : String) (l : List String)
    (h : l.Nodup) : memB k (eraseKey k l) = false := by
  induction l with
  | nil => rfl
  | cons x xs ih =>
    have hx := List.nodup_cons.mp h
    by_cases he : x = k
    · subst he
      simp [eraseKey]
      rw [← Bool.not_eq_true, memB_iff_mem]
      exact hx.1
    · simp [eraseKey, if_neg he, memB, if_neg he]
      exact ih hx.2

theorem lookupA_updA_self (l : List (Nat × TabState)) (t : Nat)
    (f : TabState → TabState) :
    lookupA (updA t f l) t = (lookupA l t).map f := by
  induction l with
  | nil => rfl
  | cons p xs ih =>
    by_cases h : p.1 = t
    · simp [updA, lookupA, if_pos h, h]
    · simp [updA, lookupA, if_neg h, ih]

theorem updA_updA (l : List (Nat × TabState)) (t : Nat)
    (f g : TabState → TabState) :
    updA t g (updA t f l) = updA t (fun s => g (f s)) l := by
  induction l with
  | nil => rfl
  | cons p xs ih =>
    by_cases h : p.1 = t
    · simp [updA, if_pos h, ih]
    · simp [updA, if_neg h, ih]

theorem lookupA_setA_self (l : List (Nat × TabState)) (t : Nat) (v : TabState) :
    lookupA (setA l t v) t = some v := by
  unfold setA
  by_cases h : (lookupA l t).isSome
  · rw [if_pos h, lookupA_updA_self]
    cases hl : lookupA l t with
    | none => rw [hl] at h; simp at h
    | some st => simp
  · rw [if_neg h]
    simp [lookupA]

theorem getTabStateBG_of_some (bg : BGState) (t : Nat) (st : TabState)
    (h : lookupTab bg t = some st) : getTabStateBG bg t = (st, bg) := by
  simp [getTabStateBG, h]

theorem getTabStateBG_pending (bg : BGState) (t : Nat) :
    (getTabStateBG bg t).2.pendingRequests = bg.pendingRequests := by
  unfold getTabStateBG
  cases h : lookupTab bg t with
  | some st => rfl
  | none => rfl

theorem lookupTab_getTabStateBG (bg : BGState) (t : Nat) :
    lookupTab (getTabStateBG bg t).2 t = some (getTabStateBG bg t).1 := by
  unfold getTabStateBG
  cases h : lookupTab bg t with
  | some st => simpa using h
  | none => simpa [lookupTab, initTabState] using lookupA_setA_self bg.tabStates t initialTabState

theorem lookupTab_updTab_self (bg : BGState) (t : Nat) (f : TabState → TabState) :
    lookupTab (updTab bg t f) t = (lookupTab bg t).map f :=
  lookupA_updA_self bg.tabStates t f

theorem updTab_pending (bg : BGState) (t : Nat) (f : TabState → TabState) :
    (updTab bg t f).pendingRequests = bg.pendingRequests := rfl

/-! The session invariant of the specification and its preservation. -/

/-- Whether the session holds a non-empty subtitle list. -/
def subsNonempty (s : TabState) : Bool := !(s.subtitles.getD []).isEmpty

/-- The TabSession invariant claimed by the specification: loading and
active are never both set, and non-empty subtitles imply active. -/
def TabInv (s : TabState) : Prop :=
  ¬(s.isLoading = true ∧ s.isActive = true) ∧
    (subsNonempty s = true → s.isActive = true)

instance (s : TabState) : Decidable (TabInv s) := by
  unfold TabInv; infer_instance

/-- The invariant over every session in the background store. -/
def BGInv (bg : BGState) : Prop := ∀ p ∈ bg.tabStates, TabInv p.2

theorem tabInv_initial : TabInv initialTabState := by
  simp [TabInv, initialTabState, subsNonempty]

theorem tabInv_catchUpdF (e : String) (s : TabState) (h : TabInv s) :
    TabInv (catchUpdF e s) := by
  refine ⟨by simp [catchUpdF], ?_⟩
  simpa [catchUpdF, subsNonempty] using h.2

theorem tabInv_cancelResetUpd (s : TabState) (h : TabInv s) :
    TabInv (cancelResetUpd s) := by
  refine ⟨by simp [cancelResetUpd], ?_⟩
  simpa [cancelResetUpd, subsNonempty] using h.2

theorem tabInv_successUpd (r : TranslateResult) (s : TabState) :
    TabInv (successUpd r s) := by
  exact ⟨by simp [successUpd], by simp [successUpd]⟩

theorem tabInv_catch_load (e : String) (v : Option String) (s : TabState)
    (h : TabInv s) : TabInv (catchUpdF e (loadUpd v s)) := by
  refine ⟨by simp [catchUpdF], ?_⟩
  simpa [catchUpdF, loadUpd, subsNonempty] using h.2

theorem tabInv_reset_load (v : Option String) (s : TabState)
    (h : TabInv s) : TabInv (cancelResetUpd (loadUpd v s)) := by
  refine ⟨by simp [cancelResetUpd], ?_⟩
  simpa [cancelResetUpd, loadUpd, subsNonempty] using h.2

theorem inv_updA (l : List (Nat × TabState)) (t : Nat)
    (f : TabState → TabState) (hf : ∀ s, TabInv s → TabInv (f s))
    (hl : ∀ q ∈ l, TabInv q.2) : ∀ q ∈ updA t f l, TabInv q.2 := by
  induction l with
  | nil => intro q hq; cases hq
  | cons p xs ih =>
    intro q hq
    have hxs : ∀ x ∈ xs, TabInv x.2 := fun x hx => hl x (List.mem_cons_of_mem p hx)
    rcases List.mem_cons.mp hq with h1 | h2
    · by_cases hp : p.1 = t
      · rw [if_pos hp] at h1
        subst h1
        exact hf p.2 (hl p (List.mem_cons_self p _))
      · rw [if_neg hp] at h1
        rw [h1]
        exact hl p (List.mem_cons_self p _)
    · exact ih hxs q h2

theorem bginv_updTab (bg : BGState) (t : Nat) (f : TabState → TabState)
    (hf : ∀ s, TabInv s → TabInv (f s)) (hb : BGInv bg) :
    BGInv (updTab bg t f) :=
  inv_updA bg.tabStates t f hf hb

theorem bginv_setA (bg : BGState) (t : Nat) (v : TabState)
    (hv : TabInv v) (hb : BGInv bg) :
    BGInv { bg with tabStates := setA bg.tabStates t v } := by
  intro p hp
  unfold setA at hp
  simp only [] at hp
  by_cases h : (lookupA bg.tabStates t).isSome
  · rw [if_pos h] at hp
    exact inv_updA bg.tabStates t (fun _ => v) (fun _ _ => hv) hb p hp
  · rw [if_neg h] at hp
    rcases List.mem_cons.mp hp with h1 | h2
    · subst h1; exact hv
    · exact hb p h2

theorem bginv_getTabStateBG (bg : BGState) (t : Nat) (hb : BGInv bg) :
    BGInv (getTabStateBG bg t).2 := by
  unfold getTabStateBG
  cases h : lookupTab bg t with
  | some st => exact hb
  | none => exact bginv_setA bg t initialTabState tabInv_initial hb

theorem bginv_of_tabStates_eq (bg bg' : BGState)
    (h : bg'.tabStates = bg.tabStates) (hb : BGInv bg) : BGInv bg' := by
  intro p hp
  rw [h] at hp
  exact hb p hp

/-! Structural lemmas about the stages of handleTranslate. -/

theorem handleTranslateEnter_some (pc : Except String CancelResult)
    (bg0 : BGState) (tabId : Nat) (url : String) (x : BGState × List Effect × String)
    (h : handleTranslateEnter pc bg0 tabId url = some x) :
    x.1.tabStates = (getTabStateBG bg0 tabId).2.tabStates ∧
    x.2.2 = mkRequestKey tabId (extractVideoId url) ∧
    x.1.pendingRequests =
      mkRequestKey tabId (extractVideoId url) :: bg0.pendingRequests := by
  simp only [handleTranslateEnter] at h
  rw [getTabStateBG_pending] at h
  by_cases hmem :
      memB (mkRequestKey tabId (extractVideoId url)) bg0.pendingRequests = true
  · rw [if_pos hmem] at h
    cases h
  · rw [if_neg hmem] at h
    cases h
    refine ⟨rfl, rfl, ?_⟩
    simp [getTabStateBG_pending]

theorem handleTranslateEnter_none (pc : Except String CancelResult)
    (bg0 : BGState) (tabId : Nat) (url : String)
    (h : memB (mkRequestKey tabId (extractVideoId url)) bg0.pendingRequests = true) :
    handleTranslateEnter pc bg0 tabId url = none := by
  simp only [handleTranslateEnter]
  rw [getTabStateBG_pending, h]
  simp

theorem translatePre_inl (hf : Except String HealthJson) (bg : BGState)
    (tabId : Nat) (v : Option String) (y : BGState × List Effect)
    (h : translatePre hf bg tabId v = .inl y) :
    y.1 = updTab bg tabId (loadUpd v) ∧
    y.2 = [Effect.healthCheck, Effect.tabMessage tabId] := by
  simp only [translatePre] at h
  split at h
  · cases h
  · split at h
    · cases h
    · cases h; exact ⟨rfl, rfl⟩

theorem translatePre_inr (hf : Except String HealthJson) (bg : BGState)
    (tabId : Nat) (v : Option String) (y : BGState × TranslateResponse × List Effect)
    (h : translatePre hf bg tabId v = .inr y) :
    ∃ e, y.1 = updTab bg tabId (catchUpdF e) ∧ y.2.2 = [Effect.healthCheck] := by
  simp only [translatePre] at h
  split at h
  · cases h; exact ⟨_, rfl, rfl⟩
  · split at h
    · cases h; exact ⟨_, rfl, rfl⟩
    · cases h

theorem translatePost_fst (o : Except String TranslateResult) (bg : BGState)
    (tabId : Nat) (u s : String) :
    (translatePost o bg tabId u s).1 = updTab bg tabId (catchUpdF "") ∨
    (∃ e, (translatePost o bg tabId u s).1 = updTab bg tabId (catchUpdF e)) ∨
    (∃ r, (translatePost o bg tabId u s).1 = updTab bg tabId (successUpd r)) ∨
    (translatePost o bg tabId u s).1 = updTab bg tabId cancelResetUpd := by
  unfold translatePost
  cases o with
  | error e => exact Or.inr (Or.inl ⟨e, rfl⟩)
  | ok r =>
    by_cases hr : r.success
    · simp only [hr, if_pos]
      exact Or.inr (Or.inr (Or.inl ⟨r, rfl⟩))
    · simp only [hr, if_neg]
      right; right; right
      simp [hr]

theorem translatePost_pending (o : Except String TranslateResult) (bg : BGState)
    (tabId : Nat) (u s : String) :
    (translatePost o bg tabId u s).1.pendingRequests = bg.pendingRequests := by
  rcases translatePost_fst o bg tabId u s with h | ⟨e, h⟩ | ⟨r, h⟩ | h <;>
    rw [h] <;> rfl

theorem translatePost_effects (o : Except String TranslateResult) (bg : BGState)
    (tabId : Nat) (u s : String) :
    (translatePost o bg tabId u s).2.2 = [Effect.translateReq u s] := by
  unfold translatePost
  cases o with
  | error e => rfl
  | ok r =>
    by_cases hr : r.success
    · simp [hr]
    · simp [hr]

theorem updTab_updTab (bg : BGState) (t : Nat) (f g : TabState → TabState) :
    updTab (updTab bg t f) t g = updTab bg t (fun s => g (f s)) := by
  simp [updTab, updA_updA]

theorem bginv_handleTranslate (env : TEnv) (bg : BGState) (tabId : Nat)
    (url lang : String) (hb : BGInv bg) :
    BGInv (handleTranslate env bg tabId url lang).1 := by
  cases henter : handleTranslateEnter env.prevCancel bg tabId url with
  | none =>
    simp only [handleTranslate, henter]
    exact bginv_getTabStateBG bg tabId hb
  | some x =>
    obtain ⟨bg1, cEffs, key⟩ := x
    have hs := handleTranslateEnter_some env.prevCancel bg tabId url _ henter
    have hbg1 : BGInv bg1 :=
      bginv_of_tabStates_eq _ _ hs.1 (bginv_getTabStateBG bg tabId hb)
    cases hpre : translatePre env.healthFetch bg1 tabId (extractVideoId url) with
    | inr y =>
      obtain ⟨bg2, resp, effs⟩ := y
      obtain ⟨e, h1, -⟩ := translatePre_inr _ _ _ _ _ hpre
      have hbg2 : BGInv bg2 := by
        rw [show bg2 = updTab bg1 tabId (catchUpdF e) from h1]
        exact bginv_updTab bg1 tabId (catchUpdF e) (tabInv_catchUpdF e) hbg1
      simp only [handleTranslate, henter, hpre]
      exact bginv_of_tabStates_eq bg2 _ rfl hbg2
    | inl y =>
      obtain ⟨bg2, effs⟩ := y
      have h1 : bg2 = updTab bg1 tabId (loadUpd (extractVideoId url)) :=
        (translatePre_inl _ _ _ _ _ hpre).1
      have hpost : BGInv (translatePost env.translateOutcome bg2 tabId url lang).1 := by
        rcases translatePost_fst env.translateOutcome bg2 tabId url lang with
          h2 | ⟨e, h2⟩ | ⟨r, h2⟩ | h2
        · rw [h2, h1, updTab_updTab]
          exact bginv_updTab bg1 tabId _
            (fun s hsv => tabInv_catch_load "" (extractVideoId url) s hsv) hbg1
        · rw [h2, h1, updTab_updTab]
          exact bginv_updTab bg1 tabId _
            (fun s hsv => tabInv_catch_load e (extractVideoId url) s hsv) hbg1
        · rw [h2, h1, updTab_updTab]
          exact bginv_updTab bg1 tabId _
            (fun s _ => tabInv_successUpd r (loadUpd (extractVideoId url) s)) hbg1
        · rw [h2, h1, updTab_updTab]
          exact bginv_updTab bg1 tabId _
            (fun s hsv => tabInv_reset_load (extractVideoId url) s hsv) hbg1
      simp only [handleTranslate, henter, hpre]
      exact bginv_of_tabStates_eq _ _ rfl hpost

theorem bginv_handleCancelTranslation (o : Except String CancelResult)
    (bg : BGState) (tabId : Nat) (mvid : Option String) (hb : BGInv bg) :
    BGInv (handleCancelTranslation o bg tabId mvid).1 := by
  simp only [handleCancelTranslation]
  split
  · exact bginv_getTabStateBG bg tabId hb
  · split
    · exact bginv_updTab _ tabId cancelResetUpd
        (fun s hsv => tabInv_cancelResetUpd s hsv)
        (bginv_of_tabStates_eq _ _ rfl (bginv_getTabStateBG bg tabId hb))
    · exact bginv_getTabStateBG bg tabId hb

theorem bginv_tabRemoved (bg : BGState) (tabId : Nat) (hb : BGInv bg) :
    BGInv (tabRemovedHandler bg tabId) := by
  intro p hp
  exact hb p (List.mem_of_mem_filter hp)

theorem bginv_tabUpdated (bg : BGState) (tabId : Nat) (u : Option String)
    (hb : BGInv bg) : BGInv (tabUpdatedHandler bg tabId u) := by
  cases u with
  | none => exact hb
  | some url =>
    simp only [tabUpdatedHandler]
    split
    · cases hl : lookupTab bg tabId with
      | none => simp only [hl]; exact hb
      | some st =>
        simp only [hl]
        split
        · exact bginv_setA _ tabId initialTabState tabInv_initial
            (bginv_of_tabStates_eq _ _ rfl hb)
        · exact hb
    · exact hb

theorem bginv_applyOp (bg : BGState) (op : BGOp) (hb : BGInv bg)
    (hop : op.isSetState = false) : BGInv (applyOp bg op) := by
  cases op with
  | getState t => exact bginv_getTabStateBG bg t hb
  | translate env t u l => exact bginv_handleTranslate env bg t u l hb
  | cancelT o t m => exact bginv_handleCancelTranslation o bg t m hb
  | setState t p => simp [BGOp.isSetState] at hop
  | tabRemoved t => exact bginv_tabRemoved bg t hb
  | tabUpdated t u => exact bginv_tabUpdated bg t u hb

theorem bginv_initial : BGInv BGState.initial := by
  intro p hp
  cases hp

theorem bginv_foldl (ops : List BGOp) (bg : BGState) (hb : BGInv bg)
    (h : ∀ op ∈ ops, op.isSetState = false) :
    BGInv (ops.foldl applyOp bg) := by
  induction ops generalizing bg with
  | nil => exact hb
  | cons op rest ih =>
    exact ih (applyOp bg op)
      (bginv_applyOp bg op hb (h op (List.mem_cons_self _ _)))
      (fun x hx => h x (List.mem_cons_of_mem _ hx))

/-! Further structural lemmas for the claim theorems. -/

theorem requestCancel_effects (o : Except String CancelResult)
    (v : Option String) :
    (requestCancelByVideoId o v).2 =
      if truthyOptStr v = true then [Effect.cancelReq (v.getD "")] else [] := by
  cases o <;> simp only [requestCancelByVideoId] <;> split <;> simp

theorem handleTranslateEnter_isSome (pc : Except String CancelResult)
    (bg0 : BGState) (tabId : Nat) (url : String)
    (h : memB (mkRequestKey tabId (extractVideoId url)) bg0.pendingRequests
      = false) :
    ∃ x, handleTranslateEnter pc bg0 tabId url = some x := by
  simp only [handleTranslateEnter]
  rw [getTabStateBG_pending, h]
  simp

theorem handleTranslate_pending (env : TEnv) (bg : BGState) (tabId : Nat)
    (url lang : String)
    (hkey : memB (mkRequestKey tabId (extractVideoId url)) bg.pendingRequests
      = false) :
    (handleTranslate env bg tabId url lang).1.pendingRequests
      = bg.pendingRequests := by
  obtain ⟨x, hx⟩ := handleTranslateEnter_isSome env.prevCancel bg tabId url hkey
  obtain ⟨bg1, cEffs, key⟩ := x
  obtain ⟨hts, hkeyeq, hpend⟩ :=
    handleTranslateEnter_some env.prevCancel bg tabId url _ hx
  simp only [] at hkeyeq hpend
  cases hpre : translatePre env.healthFetch bg1 tabId (extractVideoId url) with
  | inr y =>
    obtain ⟨bg2, resp, effs⟩ := y
    obtain ⟨e, h1, -⟩ := translatePre_inr _ _ _ _ _ hpre
    simp only [] at h1
    simp only [handleTranslate, hx, hpre]
    rw [show bg2.pendingRequests = key :: bg.pendingRequests from by
          rw [h1, updTab_pending, hpend, hkeyeq]]
    exact eraseKey_cons_self key bg.pendingRequests
  | inl y =>
    obtain ⟨bg2, effs⟩ := y
    have h1 : bg2 = updTab bg1 tabId (loadUpd (extractVideoId url)) :=
      (translatePre_inl _ _ _ _ _ hpre).1
    simp only [handleTranslate, hx, hpre]
    rw [show (translatePost env.translateOutcome bg2 tabId url lang).1.pendingRequests
          = key :: bg.pendingRequests from by
          rw [translatePost_pending, h1, updTab_pending, hpend, hkeyeq]]
    exact eraseKey_cons_self key bg.pendingRequests

theorem translatePost_resp_ne_duplicate (o : Except String TranslateResult)
    (bg : BGState) (tabId : Nat) (u s : String) :
    (translatePost o bg tabId u s).2.1 ≠ TranslateResponse.duplicate := by
  unfold translatePost
  cases o with
  | error e => simp
  | ok r =>
    by_cases hr : r.success
    · simp [hr]
    · simp [hr]

/-! Lemmas about the playback synchronizer. -/

theorem jsFindIndex_of_mem (l : List Segment) (t : ℚ) (i : Nat)
    (h : i < l.length)
    (hsep : l.Pairwise (fun a b => a.«end» ≤ b.start))
    (h1 : (l.get ⟨i, h⟩).start ≤ t) (h2 : t < (l.get ⟨i, h⟩).«end») :
    jsFindIndex (segMatches t) l = some i := by
  induction l generalizing i with
  | nil => cases h
  | cons a xs ih =>
    cases i with
    | zero =>
      have hpa : segMatches t a = true := by
        simp only [segMatches, Bool.and_eq_true, decide_eq_true_eq]
        exact ⟨h1, h2⟩
      simp [jsFindIndex, hpa]
    | succ j =>
      have hj : j < xs.length := Nat.lt_of_succ_lt_succ h
      have hmem : xs.get ⟨j, hj⟩ ∈ xs := xs.get_mem _ _
      have hend : a.«end» ≤ (xs.get ⟨j, hj⟩).start :=
        (List.pairwise_cons.mp hsep).1 _ hmem
      have hlt : ¬ t < a.«end» := not_lt.mpr (le_trans hend h1)
      have hpa : segMatches t a = false := by
        simp [segMatches, hlt]
      have htl : jsFindIndex (segMatches t) xs = some j :=
        ih j hj (List.pairwise_cons.mp hsep).2 h1 h2
      simp [jsFindIndex, hpa, htl]

theorem jsFindIndex_none (p : Segment → Bool) (l : List Segment)
    (h : ∀ x ∈ l, p x = false) : jsFindIndex p l = none := by
  induction l with
  | nil => rfl
  | cons a xs ih =>
    simp [jsFindIndex, h a (List.mem_cons_self a xs),
      ih (fun x hx => h x (List.mem_cons_of_mem a hx))]

theorem updateSubtitle_selects (st : ContentState) (t : ℚ) (i : Nat)
    (hui : st.uiPresent = true)
    (hsep : st.subtitles.Pairwise (fun a b => a.«end» ≤ b.start))
    (hlt : i < st.subtitles.length)
    (h1 : (st.subtitles.get ⟨i, hlt⟩).start ≤ t)
    (h2 : t < (st.subtitles.get ⟨i, hlt⟩).«end») :
    (updateSubtitle t st).currentIndex = (i : Int) := by
  have hfi := jsFindIndex_of_mem st.subtitles t i hlt hsep h1 h2
  have hne : st.subtitles.isEmpty = false := by
    cases hs : st.subtitles with
    | nil => rw [hs] at hlt; cases hlt
    | cons a xs => rfl
  unfold updateSubtitle
  rw [hui, hne, hfi]
  by_cases hceq : (i : Int) = st.currentIndex
  · simp [hceq]
  · simp [hceq]

theorem updateSubtitle_fields (t : ℚ) (st : ContentState) :
    (updateSubtitle t st).subtitles = st.subtitles ∧
    (updateSubtitle t st).isActive = st.isActive ∧
    (updateSubtitle t st).currentTaskId = st.currentTaskId ∧
    (updateSubtitle t st).currentVideoId = st.currentVideoId ∧
    (updateSubtitle t st).cachedSubtitles = st.cachedSubtitles ∧
    (updateSubtitle t st).buttonActive = st.buttonActive ∧
    (updateSubtitle t st).uiPresent = st.uiPresent ∧
    (updateSubtitle t st).isAdPlaying = st.isAdPlaying ∧
    (updateSubtitle t st).pendingRequest = st.pendingRequest ∧
    (updateSubtitle t st).isLoading = st.isLoading := by
  unfold updateSubtitle
  split
  · simp
  · split
    · simp
    · split
      · split <;> simp
      · split <;> simp

/-- C1: when the pending key for (tabId, videoId) is already registered,
the translate handler fails immediately with the duplicate-request
response, records no outgoing call of any kind (no health check, no
translate, no cancel), leaves the pending set unchanged and, whenever the
tab already has a session, the whole store unchanged — so a second
request for a pending key is rejected, keeping at most one request in
flight per key. -/
theorem c1_duplicate_rejected (env : TEnv) (bg : BGState) (tabId : Nat)
    (url lang : String)
    (hkey : memB (mkRequestKey tabId (extractVideoId url)) bg.pendingRequests
      = true) :
    (handleTranslate env bg tabId url lang).2.1 = TranslateResponse.duplicate ∧
    (handleTranslate env bg tabId url lang).2.2 = [] ∧
    (handleTranslate env bg tabId url lang).1.pendingRequests
      = bg.pendingRequests ∧
    ((lookupTab bg tabId).isSome → (handleTranslate env bg tabId url lang).1 = bg) := by
  have he := handleTranslateEnter_none env.prevCancel bg tabId url hkey
  have hmain : handleTranslate env bg tabId url lang
      = ((getTabStateBG bg tabId).2, TranslateResponse.duplicate, []) := by
    simp only [handleTranslate, he]
  rw [hmain]
  refine ⟨rfl, rfl, getTabStateBG_pending bg tabId, ?_⟩
  intro hs
  cases hl : lookupTab bg tabId with
  | none => rw [hl] at hs; cases hs
  | some st => simp [getTabStateBG, hl]

theorem c1_duplicate_rejected_witness :
    memB (mkRequestKey 1 (extractVideoId urlA)) bgPendingA.pendingRequests
      = true ∧
    (handleTranslate envSuccess bgPendingA 1 urlA "en").2.1
      = TranslateResponse.duplicate ∧
    (handleTranslate envSuccess bgPendingA 1 urlA "en").2.2 = [] ∧
    (handleTranslate envSuccess bgPendingA 1 urlA "en").1 = bgPendingA := by
  have h := c1_duplicate_rejected envSuccess bgPendingA 1 urlA "en" (by decide)
  exact ⟨by decide, h.1, h.2.1, h.2.2.2 (by decide)⟩

/-- C2: every translate-handler invocation that registers its pending key
(the key was not pending at entry) removes it exactly once before
returning, on every outcome the environment can produce — success,
backend-reported cancellation, transport or HTTP failure, or a
health-check fault — leaving the pending set exactly as it was, so the
key is never left registered. -/
theorem c2_pending_removed (env : TEnv) (bg : BGState) (tabId : Nat)
    (url lang : String)
    (hkey : memB (mkRequestKey tabId (extractVideoId url)) bg.pendingRequests
      = false) :
    (handleTranslate env bg tabId url lang).1.pendingRequests
      = bg.pendingRequests ∧
    memB (mkRequestKey tabId (extractVideoId url))
      (handleTranslate env bg tabId url lang).1.pendingRequests = false := by
  have h := handleTranslate_pending env bg tabId url lang hkey
  exact ⟨h, by rw [h]; exact hkey⟩

theorem c2_pending_removed_witness :
    memB (mkRequestKey 1 (extractVideoId urlA)) BGState.initial.pendingRequests
      = false ∧
    (handleTranslate envSuccess BGState.initial 1 urlA "en").1.pendingRequests
      = BGState.initial.pendingRequests := by
  exact ⟨by decide,
    (c2_pending_removed envSuccess BGState.initial 1 urlA "en" (by decide)).1⟩

/-- C7: when the session for the tab is not loading, cancelTranslation is
a no-op: it returns the success response, issues no backend call, and the
store (sessions and pending keys) is returned unchanged — idempotent and
safe to call speculatively. -/
theorem c7_cancel_noop (o : Except String CancelResult) (bg : BGState)
    (tabId : Nat) (mvid : Option String) (st : TabState)
    (hst : lookupTab bg tabId = some st) (hld : st.isLoading = false) :
    handleCancelTranslation o bg tabId mvid
      = (bg, CancelResponse.nothingToCancel, []) := by
  simp only [handleCancelTranslation, getTabStateBG_of_some bg tabId st hst]
  simp [hld]

theorem c7_cancel_noop_witness :
    lookupTab bgPendingA 1 = some initialTabState ∧
    initialTabState.isLoading = false ∧
    handleCancelTranslation (Except.ok okCancel) bgPendingA 1 (some "abc")
      = (bgPendingA, CancelResponse.nothingToCancel, []) := by
  exact ⟨by decide, by decide,
    c7_cancel_noop (Except.ok okCancel) bgPendingA 1 (some "abc")
      initialTabState (by decide) (by decide)⟩

/-- C8: when the session is loading and a truthy video id is available
(from the message or the session), cancelTranslation erases the pending
key for it, issues exactly one backend cancel call, and — for every
possible outcome of that call — resets the session to not loading with a
null video id; with a duplicate-free pending set the key is gone
afterwards. -/
theorem c8_cancel_resets (o : Except String CancelResult) (bg : BGState)
    (tabId : Nat) (mvid : Option String) (st : TabState)
    (hst : lookupTab bg tabId = some st) (hld : st.isLoading = true)
    (hv : truthyOptStr (jsOr mvid st.currentVideoId) = true) :
    (handleCancelTranslation o bg tabId mvid).1.pendingRequests
      = eraseKey (mkRequestKey tabId (jsOr mvid st.currentVideoId))
          bg.pendingRequests ∧
    lookupTab (handleCancelTranslation o bg tabId mvid).1 tabId
      = some (cancelResetUpd st) ∧
    (cancelResetUpd st).isLoading = false ∧
    (cancelResetUpd st).currentVideoId = none ∧
    (handleCancelTranslation o bg tabId mvid).2.2
      = [Effect.cancelReq ((jsOr mvid st.currentVideoId).getD "")] ∧
    (bg.pendingRequests.Nodup →
      memB (mkRequestKey tabId (jsOr mvid st.currentVideoId))
        (handleCancelTranslation o bg tabId mvid).1.pendingRequests = false) := by
  have hmain : handleCancelTranslation o bg tabId mvid
      = (updTab
           { bg with
             pendingRequests :=
               eraseKey (mkRequestKey tabId (jsOr mvid st.currentVideoId))
                 bg.pendingRequests }
           tabId cancelResetUpd,
         CancelResponse.backendResult
           (requestCancelByVideoId o (jsOr mvid st.currentVideoId)).1,
         (requestCancelByVideoId o (jsOr mvid st.currentVideoId)).2) := by
    simp only [handleCancelTranslation, getTabStateBG_of_some bg tabId st hst]
    simp [hld, hv]
  rw [hmain]
  refine ⟨rfl, ?_, rfl, rfl, ?_, ?_⟩
  · rw [lookupTab_updTab_self]
    have hlk : lookupTab
        { bg with
          pendingRequests :=
            eraseKey (mkRequestKey tabId (jsOr mvid st.currentVideoId))
              bg.pendingRequests }
        tabId = some st := hst
    rw [hlk]
    rfl
  · rw [requestCancel_effects, if_pos hv]
  · intro hnd
    exact memB_eraseKey_of_nodup _ _ hnd

theorem c8_cancel_resets_witness :
    lookupTab bgLoadingA 1
      = some { initialTabState with isLoading := true,
                                    currentVideoId := some "abc" } ∧
    truthyOptStr (jsOr none (some "abc")) = true ∧
    (handleCancelTranslation (Except.error "network down") bgLoadingA 1
        none).1.pendingRequests = [] ∧
    (handleCancelTranslation (Except.error "network down") bgLoadingA 1
        none).2.2 = [Effect.cancelReq "abc"] := by
  have h := c8_cancel_resets (Except.error "network down") bgLoadingA 1 none
    { initialTabState with isLoading := true, currentVideoId := some "abc" }
    (by decide) (by decide) (by decide)
  refine ⟨by decide, by decide, ?_, ?_⟩
  · rw [h.1]; decide
  · exact h.2.2.2.2.1

/-- C9: a translate request for video b, arriving while the session of
the tab is loading a different truthy video a and with the key for b not
pending, issues the best-effort cancel for a strictly before every other
outgoing call (whatever that cancel returns), then the health check, the
content notification and the translate call; when the translate fetch
succeeds, the final session is the success update over the loading
update, whose video id is b. -/
theorem c9_new_video_cancels_old (pc : Except String CancelResult)
    (hjson : HealthJson) (r : TranslateResult) (bg : BGState) (tabId : Nat)
    (url lang : String) (st : TabState) (a b : String)
    (hst : lookupTab bg tabId = some st)
    (hld : st.isLoading = true)
    (hcur : st.currentVideoId = some a)
    (ha : ¬ a = "")
    (hbv : extractVideoId url = some b)
    (hab : ¬ a = b)
    (hkey : memB (mkRequestKey tabId (some b)) bg.pendingRequests = false)
    (holl : hjson.ollama = "connected")
    (hrs : r.success = true) :
    (handleTranslate ⟨Except.ok hjson, Except.ok r, pc⟩ bg tabId url lang).2.2
      = [Effect.cancelReq a, Effect.healthCheck, Effect.tabMessage tabId,
         Effect.translateReq url lang] ∧
    lookupTab
        (handleTranslate ⟨Except.ok hjson, Except.ok r, pc⟩ bg tabId url lang).1
        tabId
      = some (successUpd r (loadUpd (some b) st)) ∧
    (successUpd r (loadUpd (some b) st)).currentVideoId = some b := by
  have henter : handleTranslateEnter pc bg tabId url
      = some ({ bg with
                pendingRequests :=
                  mkRequestKey tabId (some b) :: bg.pendingRequests },
              [Effect.cancelReq a], mkRequestKey tabId (some b)) := by
    simp only [handleTranslateEnter, getTabStateBG_of_some bg tabId st hst, hbv]
    rw [hkey]
    simp only [Bool.false_eq_true, if_false]
    rw [hld, hcur]
    simp [truthyOptStr, ha, hab, requestCancel_effects]
  have hpre : ∀ bg' : BGState,
      translatePre (Except.ok hjson) bg' tabId (some b)
        = Sum.inl (updTab bg' tabId (loadUpd (some b)),
                   [Effect.healthCheck, Effect.tabMessage tabId]) := by
    intro bg'
    simp [translatePre, checkServerHealth, holl]
  have hpost : ∀ bg' : BGState,
      translatePost (Except.ok r) bg' tabId url lang
        = (updTab bg' tabId (successUpd r),
           TranslateResponse.success
             { taskId := r.task_id, videoId := r.video_id, title := r.title,
               segments := r.segments, context := r.context,
               totalSegments := r.total_segments, sourceType := r.source_type,
               cached := r.cached },
           [Effect.translateReq url lang]) := by
    intro bg'
    simp [translatePost, hrs]
  have hmain := hpre
    { bg with
      pendingRequests := mkRequestKey tabId (some b) :: bg.pendingRequests }
  simp only [handleTranslate, henter, hbv, hmain, hpost]
  refine ⟨rfl, ?_, rfl⟩
  rw [updTab_updTab]
  show lookupTab
      (updTab
        { bg with
          pendingRequests := mkRequestKey tabId (some b) :: bg.pendingRequests }
        tabId (fun s => successUpd r (loadUpd (some b) s)))
      tabId
    = some (successUpd r (loadUpd (some b) st))
  rw [lookupTab_updTab_self]
  have hlk : lookupTab
      { bg with
        pendingRequests := mkRequestKey tabId (some b) :: bg.pendingRequests }
      tabId = some st := hst
  rw [hlk]
  rfl

theorem c9_new_video_cancels_old_witness :
    lookupTab { bgLoadingA with pendingRequests := [] } 1
      = some { initialTabState with isLoading := true,
                                    currentVideoId := some "abc" } ∧
    extractVideoId "https://www.youtube.com/watch?v=next" = some "next" ∧
    (handleTranslate ⟨Except.ok healthUp, Except.ok trSuccess, Except.ok okCancel⟩
        { bgLoadingA with pendingRequests := [] } 1
        "https://www.youtube.com/watch?v=next" "en").2.2
      = [Effect.cancelReq "abc", Effect.healthCheck, Effect.tabMessage 1,
         Effect.translateReq "https://www.youtube.com/watch?v=next" "en"] ∧
    (successUpd trSuccess (loadUpd (some "next")
        { initialTabState with isLoading := true,
                               currentVideoId := some "abc" })).currentVideoId
      = some "next" := by
  have h := c9_new_video_cancels_old (Except.ok okCancel) healthUp trSuccess
    { bgLoadingA with pendingRequests := [] } 1
    "https://www.youtube.com/watch?v=next" "en"
    { initialTabState with isLoading := true, currentVideoId := some "abc" }
    "abc" "next" (by decide) (by decide) (by decide) (by decide) (by decide)
    (by decide) (by decide) (by decide) (by decide)
  exact ⟨by decide, by decide, h.1, h.2.2⟩

/-- C10: for a URL from which no video id can be extracted (extractVideoId
is total and yields none instead of throwing, for malformed URLs
included), the translate handler does not reject the input: on a fresh
tab with the key not pending it computes the key with the null id
rendered as the text null, registers that key, and proceeds to the
health check, the content notification and the translate call; the
response is never the duplicate rejection. -/
theorem c10_null_video_id (pc : Except String CancelResult)
    (hjson : HealthJson) (tr : Except String TranslateResult) (bg : BGState)
    (tabId : Nat) (url lang : String)
    (hvid : extractVideoId url = none)
    (hlook : lookupTab bg tabId = none)
    (hkey : memB (mkRequestKey tabId none) bg.pendingRequests = false)
    (holl : hjson.ollama = "connected") :
    mkRequestKey tabId none = toString tabId ++ "-" ++ "null" ∧
    (∃ x, handleTranslateEnter pc bg tabId url = some x ∧
       x.2.2 = mkRequestKey tabId none ∧
       memB (mkRequestKey tabId none) x.1.pendingRequests = true) ∧
    (handleTranslate ⟨Except.ok hjson, tr, pc⟩ bg tabId url lang).2.2
      = [Effect.healthCheck, Effect.tabMessage tabId,
         Effect.translateReq url lang] ∧
    (handleTranslate ⟨Except.ok hjson, tr, pc⟩ bg tabId url lang).2.1
      ≠ TranslateResponse.duplicate := by
  have hg : getTabStateBG bg tabId = (initialTabState, initTabState bg tabId) := by
    simp [getTabStateBG, hlook]
  have hpend : (initTabState bg tabId).pendingRequests = bg.pendingRequests := rfl
  have henter : handleTranslateEnter pc bg tabId url
      = some ({ initTabState bg tabId with
                pendingRequests := mkRequestKey tabId none :: bg.pendingRequests },
              [], mkRequestKey tabId none) := by
    simp only [handleTranslateEnter, hg, hvid]
    rw [hpend, hkey]
    simp [initialTabState]
  have hpre : ∀ bg' : BGState,
      translatePre (Except.ok hjson) bg' tabId none
        = Sum.inl (updTab bg' tabId (loadUpd none),
                   [Effect.healthCheck, Effect.tabMessage tabId]) := by
    intro bg'
    simp [translatePre, checkServerHealth, holl]
  refine ⟨rfl, ⟨_, henter, rfl, by simp [memB]⟩, ?_, ?_⟩
  · simp only [handleTranslate, henter, hvid, hpre]
    rw [translatePost_effects]
    rfl
  · simp only [handleTranslate, henter, hvid, hpre]
    exact translatePost_resp_ne_duplicate tr _ tabId url lang

theorem c10_null_video_id_witness :
    extractVideoId "not a url" = none ∧
    mkRequestKey 7 none = "7-null" ∧
    (handleTranslate ⟨Except.ok healthUp, Except.ok trSuccess, Except.ok okCancel⟩
        BGState.initial 7 "not a url" "en").2.2
      = [Effect.healthCheck, Effect.tabMessage 7,
         Effect.translateReq "not a url" "en"] := by
  have h := c10_null_video_id (Except.ok okCancel) healthUp
    (Except.ok trSuccess) BGState.initial 7 "not a url" "en"
    (by decide) (by decide) (by decide) (by decide)
  exact ⟨by decide, by decide, h.2.2.1⟩

/-- C3 counterexample: the claimed invariant fails on a reachable store.
The setState operation applies an arbitrary patch with Object.assign, so
one background operation from startup produces a session with isLoading
and isActive both true. -/
theorem c3_invariant_counterexample :
    (lookupTab c3Bad 1).any (fun st => st.isLoading && st.isActive) = true := by
  decide

/-- C3 amended: for every store reachable by background operations other
than setState (each handler run to completion), every session satisfies
the invariant: isLoading and isActive never both true, and non-empty
subtitles imply isActive. The unrestricted claim fails because setState
copies arbitrary fields into the session unchecked. -/
theorem c3_invariant_no_setState (ops : List BGOp)
    (h : ∀ op ∈ ops, op.isSetState = false) :
    BGInv (runOps ops) :=
  bginv_foldl ops BGState.initial bginv_initial h

theorem c3_invariant_no_setState_witness :
    (∀ op ∈ [BGOp.translate envSuccess 1 urlA "en"], op.isSetState = false) ∧
    BGInv (runOps [BGOp.translate envSuccess 1 urlA "en"]) := by
  refine ⟨?_, c3_invariant_no_setState _ ?_⟩ <;>
    · intro op hop
      rcases List.mem_singleton.mp hop with rfl
      rfl

/-- C4 counterexample: in the interleaved trace (register key, suspend on
the translate fetch, user cancel resets the session, late successful
response processed), the claim says the late success payload is not
applied to the already-reset session; the code applies it: after the
cancel the tab-1 session is fully reset, yet after the late success it is
active again with the payload subtitles, task id and source type
installed. -/
theorem c4_late_success_counterexample :
    lookupTab c4AfterCancel 1 = some initialTabState ∧
    lookupTab c4Final 1
      = some { initialTabState with
               subtitles := some [segHello], currentTaskId := some "t1",
               sourceType := some "subtitle", isActive := true } ∧
    (lookupTab c4Final 1).any (fun s => s.isActive && !(s.subtitles == none))
      = true := by
  refine ⟨by decide, by decide, by decide⟩

/-- C4 amended: after a cancel has reset the session while the translate
call is in flight, a late cancelled-style response is authoritative (the
session stays exactly reset), but a late successful response IS applied
by the background coordinator to the already-reset session: subtitles,
task id, source type and isActive true are installed. The stale-result
discarding happens only in the page context: activateSubtitles ignores a
response whose request video id no longer equals pendingRequest, leaving
the page-side subtitles, active flag and task id untouched. -/
theorem c4_late_result (bg : BGState) (tabId : Nat) (st : TabState)
    (r : TranslateResult) (url lang : String)
    (hst : lookupTab bg tabId = some st)
    (hL : st.isLoading = false) (hV : st.currentVideoId = none) :
    (r.success = true →
      lookupTab (translatePost (Except.ok r) bg tabId url lang).1 tabId
        = some (successUpd r st)) ∧
    (successUpd r st).isActive = true ∧
    (successUpd r st).subtitles = some r.segments ∧
    (successUpd r st).currentTaskId = r.task_id ∧
    (r.success = false →
      lookupTab (translatePost (Except.ok r) bg tabId url lang).1 tabId
        = some st) ∧
    (∀ (cst : ContentState) (reqVid : Option String)
       (resp : TranslateResponse) (t : ℚ),
      (cst.pendingRequest == reqVid) = false →
      (activateResume reqVid resp t cst).subtitles = cst.subtitles ∧
      (activateResume reqVid resp t cst).isActive = cst.isActive ∧
      (activateResume reqVid resp t cst).currentTaskId = cst.currentTaskId) := by
  refine ⟨?_, rfl, rfl, rfl, ?_, ?_⟩
  · intro hrs
    simp only [translatePost, hrs, if_true]
    rw [lookupTab_updTab_self, hst]
    rfl
  · intro hrs
    simp only [translatePost, hrs, Bool.false_eq_true, if_false]
    rw [lookupTab_updTab_self, hst]
    have hs2 : cancelResetUpd st = st := by
      obtain ⟨f1, f2, f3, f4, f5, f6, f7⟩ := st
      simp only [cancelResetUpd]
      simp only at hL hV
      simp [hL, hV]
    exact congrArg some hs2
  · intro cst reqVid resp t hpr
    simp [activateResume, hpr, setLoadingC]

theorem c4_late_result_witness :
    lookupTab c4AfterCancel 1 = some initialTabState ∧
    initialTabState.isLoading = false ∧
    lookupTab (translatePost (Except.ok trSuccess) c4AfterCancel 1 urlA "en").1 1
      = some (successUpd trSuccess initialTabState) ∧
    (activateResume (some "abc") (TranslateResponse.cancelled "done") 0
        { contentBase with isLoading := true }).subtitles
      = ({ contentBase with isLoading := true } : ContentState).subtitles := by
  have h := c4_late_result c4AfterCancel 1 initialTabState trSuccess urlA "en"
    (by decide) (by decide) (by decide)
  exact ⟨by decide, by decide, h.1 (by decide),
    (h.2.2.2.2.2 { contentBase with isLoading := true } (some "abc")
      (TranslateResponse.cancelled "done") 0 (by decide)).1⟩

/-- C5 counterexample: on the ad-end edge with a snapshot cached for
video A but the page now on video B, the claim says the stale snapshot is
dropped; the code leaves it in place: nothing is restored, but
cachedSubtitles still holds the full snapshot afterwards. -/
theorem c5_stale_snapshot_counterexample :
    (onAdEnd (some "B") 0 c5State).cachedSubtitles = some c5Cache ∧
    (onAdEnd (some "B") 0 c5State).subtitles = [] ∧
    (onAdEnd (some "B") 0 c5State).isActive = false := by
  refine ⟨by decide, by decide, by decide⟩

theorem get_congr_of_eq {l l' : List Segment} (h : l = l') (i : Nat)
    (hi : i < l.length) (hi' : i < l'.length) :
    l.get ⟨i, hi⟩ = l'.get ⟨i, hi'⟩ := by
  subst h
  rfl

theorem onAdEnd_restore_eq (st : ContentState) (c : AdCache)
    (loc : Option String) (t : ℚ)
    (hc : st.cachedSubtitles = some c) (heq : loc = c.videoId) :
    onAdEnd loc t st
      = { updateSubtitle t (adRestoreState st c) with cachedSubtitles := none } := by
  simp [onAdEnd, adRestoreState, hc, heq]

theorem adRestoreState_fields (st : ContentState) (c : AdCache) :
    (adRestoreState st c).subtitles = c.subtitles ∧
    (adRestoreState st c).currentTaskId = c.taskId ∧
    (adRestoreState st c).currentVideoId = c.videoId ∧
    (adRestoreState st c).isActive = true ∧
    (adRestoreState st c).uiPresent = st.uiPresent ∧
    (st.uiPresent = true → (adRestoreState st c).buttonActive = true) := by
  unfold adRestoreState
  by_cases h : st.uiPresent = true <;> simp [h]

/-- C5 amended: on the ad-end edge the snapshot is restored into the
working session (subtitles, task id, video id, active mark, button class,
with the synchronizer re-run immediately at the current playback time) if
and only if a snapshot exists and its video id equals the identifier
re-resolved from the page location; when the identifiers differ or no
snapshot exists nothing is restored, and a mismatched stale snapshot is
left in place rather than dropped (it is cleared only by navigation
reset, deactivation, or a later matching restore). -/
theorem c5_ad_end_restore (st : ContentState) (loc : Option String) (t : ℚ) :
    (st.cachedSubtitles = none →
      onAdEnd loc t st = { st with isAdPlaying := false }) ∧
    (∀ c, st.cachedSubtitles = some c → ¬ loc = c.videoId →
      onAdEnd loc t st = { st with isAdPlaying := false }) ∧
    (∀ c, st.cachedSubtitles = some c → loc = c.videoId →
      (onAdEnd loc t st).subtitles = c.subtitles ∧
      (onAdEnd loc t st).currentTaskId = c.taskId ∧
      (onAdEnd loc t st).currentVideoId = c.videoId ∧
      (onAdEnd loc t st).isActive = true ∧
      (onAdEnd loc t st).cachedSubtitles = none ∧
      (st.uiPresent = true → (onAdEnd loc t st).buttonActive = true) ∧
      (st.uiPresent = true →
        ∀ (i : Nat) (hi : i < c.subtitles.length),
          c.subtitles.Pairwise (fun x y => x.«end» ≤ y.start) →
          (c.subtitles.get ⟨i, hi⟩).start ≤ t →
          t < (c.subtitles.get ⟨i, hi⟩).«end» →
          (onAdEnd loc t st).currentIndex = (i : Int))) := by
  refine ⟨?_, ?_, ?_⟩
  · intro hc
    simp [onAdEnd, hc]
  · intro c hc hne
    simp [onAdEnd, hc, hne]
  · intro c hc heq
    rw [onAdEnd_restore_eq st c loc t hc heq]
    obtain ⟨u1, u2, u3, u4, u5, u6, u7, u8, u9, u10⟩ :=
      updateSubtitle_fields t (adRestoreState st c)
    obtain ⟨a1, a2, a3, a4, a5, a6⟩ := adRestoreState_fields st c
    refine ⟨?_, ?_, ?_, ?_, rfl, ?_, ?_⟩
    · show (updateSubtitle t (adRestoreState st c)).subtitles = c.subtitles
      rw [u1, a1]
    · show (updateSubtitle t (adRestoreState st c)).currentTaskId = c.taskId
      rw [u3, a2]
    · show (updateSubtitle t (adRestoreState st c)).currentVideoId = c.videoId
      rw [u4, a3]
    · show (updateSubtitle t (adRestoreState st c)).isActive = true
      rw [u2, a4]
    · intro hui
      show (updateSubtitle t (adRestoreState st c)).buttonActive = true
      rw [u6]
      exact a6 hui
    · intro hui i hi hsep h1 h2
      show (updateSubtitle t (adRestoreState st c)).currentIndex = (i : Int)
      have hui2 : (adRestoreState st c).uiPresent = true := by rw [a5]; exact hui
      have hi2 : i < (adRestoreState st c).subtitles.length := by rw [a1]; exact hi
      refine updateSubtitle_selects (adRestoreState st c) t i hui2 ?_ hi2 ?_ ?_
      · rw [a1]; exact hsep
      · rw [get_congr_of_eq a1 i hi2 hi]; exact h1
      · rw [get_congr_of_eq a1 i hi2 hi]; exact h2

theorem c5_ad_end_restore_witness :
    c5State.cachedSubtitles = some c5Cache ∧
    (onAdEnd (some "A") 0 c5State).subtitles = [segHello] ∧
    (onAdEnd (some "A") 0 c5State).isActive = true ∧
    (onAdEnd (some "A") 0 c5State).cachedSubtitles = none := by
  have h := (c5_ad_end_restore c5State (some "A") 0).2.2 c5Cache
    (by decide) (by decide)
  exact ⟨by decide, h.1, h.2.2.2.1, h.2.2.2.2.1⟩

/-- C6: with the UI attached and a non-empty segment list sorted
ascending by start with pairwise non-overlapping intervals, the
synchronizer at time t selects the first (hence unique) segment whose
half-open interval contains t — t inside segment i yields recorded index
i — and when no segment matches it records index minus one, clears the
rendered text and hides the overlay (given the rendering invariant that a
recorded minus one always comes with cleared hidden text). -/
theorem c6_synchronizer (st : ContentState) (t : ℚ)
    (hui : st.uiPresent = true)
    (hsep : st.subtitles.Pairwise (fun a b => a.«end» ≤ b.start))
    (hdisp : st.currentIndex = -1 →
      st.subtitleText = "" ∧ st.subtitleHidden = true)
    (hne : st.subtitles ≠ []) :
    (∀ (i : Nat) (hlt : i < st.subtitles.length),
       (st.subtitles.get ⟨i, hlt⟩).start ≤ t →
       t < (st.subtitles.get ⟨i, hlt⟩).«end» →
       (updateSubtitle t st).currentIndex = (i : Int)) ∧
    ((∀ sub ∈ st.subtitles, ¬(sub.start ≤ t ∧ t < sub.«end»)) →
       (updateSubtitle t st).currentIndex = -1 ∧
       (updateSubtitle t st).subtitleText = "" ∧
       (updateSubtitle t st).subtitleHidden = true) := by
  constructor
  · intro i hlt h1 h2
    exact updateSubtitle_selects st t i hui hsep hlt h1 h2
  · intro hnm
    have hfi : jsFindIndex (segMatches t) st.subtitles = none := by
      apply jsFindIndex_none
      intro x hx
      rcases not_and_or.mp (hnm x hx) with h | h
      · simp [segMatches, h]
      · simp [segMatches, h]
    have hie : st.subtitles.isEmpty = false := by
      cases hs : st.subtitles with
      | nil => exact absurd hs hne
      | cons a xs => rfl
    have hupd : updateSubtitle t st
        = if (-1 : Int) = st.currentIndex then st
          else { st with currentIndex := -1, subtitleText := "",
                         subtitleHidden := true } := by
      unfold updateSubtitle
      rw [hui, hie, hfi]
      rfl
    rw [hupd]
    by_cases hc : (-1 : Int) = st.currentIndex
    · rw [if_pos hc]
      have h3 := hdisp hc.symm
      exact ⟨hc.symm, h3.1, h3.2⟩
    · rw [if_neg hc]
      exact ⟨rfl, rfl, rfl⟩

theorem c6_synchronizer_witness :
    (updateSubtitle (0 : ℚ) c6State).currentIndex = (0 : Int) ∧
    (updateSubtitle 5 c6State).currentIndex = -1 ∧
    (updateSubtitle 5 c6State).subtitleText = "" ∧
    (updateSubtitle 5 c6State).subtitleHidden = true := by
  have h1 := (c6_synchronizer c6State 0 (by decide) (by decide)
    (fun _ => by exact ⟨rfl, rfl⟩) (by decide)).1 0 (by decide)
    (by decide) (by decide)
  have h2 := (c6_synchronizer c6State 5 (by decide) (by decide)
    (fun _ => by exact ⟨rfl, rfl⟩) (by decide)).2 (by decide)
  exact ⟨h1, h2.1, h2.2.1, h2.2.2⟩

end CAYT
